import Mathlib

/-!
Shallow embedding of `src/packages/lib-roblox/src/shared/instance.rs`:
a reflection-metadata resolver over a class schema.  The reflection
database is external to the code (provided by `rbx_reflection_database`),
so every operation here takes the schema as an explicit argument.  The
Rust loops can diverge on a cyclic schema, so each loop takes a fuel
argument; running out of fuel is reported as a distinct outcome.
-/

/-- The result of running a fueled loop: either the loop finished with a
value, or the fuel ran out before it could finish. -/
inductive LoopRes (α : Type) where
  | outOfFuel : LoopRes α
  | done (val : α) : LoopRes α
deriving DecidableEq, Repr

/-- Model of `rbx_dom_weak::types::VariantType` (`DomType` in the source).
The code never inspects it, only copies it, so only the distinction
between the Enum variant tag and everything else is kept. -/
inductive DomType where
  | EnumType : DomType
  | otherType (tag : Nat) : DomType
deriving DecidableEq, Repr

/-- Model of `rbx_dom_weak::types::Variant` (`DomValue` in the source).
The code only distinguishes the `Enum` variant (whose payload it reads
with `to_u32`) from every other variant, whose payload is abstracted. -/
inductive DomValue where
  | Enum (val : Nat) : DomValue
  | other (ty : DomType) (payload : Nat) : DomValue
deriving DecidableEq, Repr

/-- The variant tag a `DomValue` carries, used to state whether a default
value matches a property's declared data type. -/
def DomValue.variantType : DomValue → DomType
  | DomValue.Enum _ => DomType.EnumType
  | DomValue.other ty _ => ty

/-- Model of `rbx_reflection::DataType`: the declared data type of a
property.  The real enum is non-exhaustive; the catch-all arm of the
source is modelled by `Other`. -/
inductive DataType where
  | Enum (name : String) : DataType
  | Value (ty : DomType) : DataType
  | Other : DataType
deriving DecidableEq, Repr

/-- Model of `rbx_reflection::ClassTag`; the code only tests for
`Service`, other tags are abstracted. -/
inductive ClassTag where
  | Service : ClassTag
  | otherTag (tag : Nat) : ClassTag
deriving DecidableEq, Repr

/-- Model of `rbx_reflection::PropertyDescriptor`; the code reads only
its `data_type` field. -/
structure PropertyDescriptor where
  data_type : DataType
deriving DecidableEq, Repr

/-- A string-keyed mapping, modelling the hash maps of the reflection
database; the first binding of a key wins. -/
def mapLookup {α : Type} : List (String × α) → String → Option α
  | [], _ => none
  | (k, v) :: rest, key => if k = key then some v else mapLookup rest key

/-- Model of `rbx_reflection::ClassDescriptor`: superclass link,
declared properties, default property values and reflection tags. -/
structure ClassDescriptor where
  superclass : Option String
  properties : List (String × PropertyDescriptor)
  default_properties : List (String × DomValue)
  tags : List ClassTag
deriving DecidableEq, Repr

/-- The class schema: the `classes` map of the reflection database. -/
def ClassSchema : Type := List (String × ClassDescriptor)

/-- Lookup of a class descriptor by class name (`db.classes.get`). -/
def schemaLookup (db : ClassSchema) (class_name : String) : Option ClassDescriptor :=
  mapLookup db class_name

/-- The query result `PropertyInfo` of the source, lines 6-11. -/
structure PropertyInfo where
  enum_name : Option String
  enum_default : Option Nat
  value_type : Option DomType
  value_default : Option DomValue
deriving DecidableEq, Repr

/-- The body of the `return Some(match &prop_definition.data_type ...)`
expression of `find_property_info` (source lines 36-58): builds the
`PropertyInfo` from the found property descriptor and the declaring
class's default entry for the property. -/
def mkPropertyInfo (prop_definition : PropertyDescriptor)
    (prop_default : Option DomValue) : PropertyInfo :=
  match prop_definition.data_type with
  | DataType.Enum enum_name =>
      { enum_name := some enum_name
        enum_default := prop_default.bind (fun dflt =>
          match dflt with
          | DomValue.Enum enum_default => some enum_default
          | _ => none)
        value_type := none
        value_default := none }
  | DataType.Value value_type =>
      { enum_name := none
        enum_default := none
        value_type := some value_type
        value_default := prop_default }
  | DataType.Other =>
      { enum_name := none
        enum_default := none
        value_type := none
        value_default := none }

/-- The `while let` loop of `find_property_info` (source lines 31-65),
with explicit fuel.  Falling out of the loop (lookup failure or `break`
on a class with no superclass) returns the final `None` of line 67. -/
def find_property_info_loop (db : ClassSchema) (property_name : String) :
    Nat → String → LoopRes (Option PropertyInfo)
  | 0, _ => LoopRes.outOfFuel
  | fuel + 1, current_class =>
    match schemaLookup db current_class with
    | none => LoopRes.done none
    | some cd =>
      match mapLookup cd.properties property_name with
      | some prop_definition =>
          LoopRes.done (some (mkPropertyInfo prop_definition
            (mapLookup cd.default_properties property_name)))
      | none =>
          match cd.superclass with
          | some sup => find_property_info_loop db property_name fuel sup
          | none => LoopRes.done none

/-- `find_property_info` (source lines 21-68). -/
def find_property_info (db : ClassSchema) (fuel : Nat)
    (instance_class property_name : String) : LoopRes (Option PropertyInfo) :=
  find_property_info_loop db property_name fuel instance_class

/-- `class_exists` (source lines 73-76). -/
def class_exists (db : ClassSchema) (class_name : String) : Bool :=
  (schemaLookup db class_name).isSome

/-- The `while instance_class != class_name` loop of `class_is_a`
(source lines 95-104), with explicit fuel. -/
def class_is_a_loop (db : ClassSchema) (class_name : String) :
    Nat → String → LoopRes (Option Bool)
  | 0, _ => LoopRes.outOfFuel
  | fuel + 1, instance_class =>
    if instance_class = class_name then LoopRes.done (some true)
    else
      match schemaLookup db instance_class with
      | none => LoopRes.done none
      | some cd =>
        match cd.superclass with
        | some sup => class_is_a_loop db class_name fuel sup
        | none => LoopRes.done (some false)

/-- `class_is_a` (source lines 86-106): the two short-circuits, then the
chain walk. -/
def class_is_a (db : ClassSchema) (fuel : Nat)
    (instance_class class_name : String) : LoopRes (Option Bool) :=
  if class_name = "Instance" ∨ instance_class = class_name then
    LoopRes.done (some true)
  else
    class_is_a_loop db class_name fuel instance_class

/-- The `loop` of `class_is_a_service` (source lines 122-131), with
explicit fuel; `break` reaches the final `Some(false)` of line 133. -/
def class_is_a_service_loop (db : ClassSchema) :
    Nat → String → LoopRes (Option Bool)
  | 0, _ => LoopRes.outOfFuel
  | fuel + 1, instance_class =>
    match schemaLookup db instance_class with
    | none => LoopRes.done none
    | some cd =>
      if ClassTag.Service ∈ cd.tags then LoopRes.done (some true)
      else
        match cd.superclass with
        | some sup => class_is_a_service_loop db fuel sup
        | none => LoopRes.done (some false)

/-- `class_is_a_service` (source lines 117-134). -/
def class_is_a_service (db : ClassSchema) (fuel : Nat)
    (instance_class : String) : LoopRes (Option Bool) :=
  class_is_a_service_loop db fuel instance_class

/-- Removing the entry (if any) of one class name from a schema; used to
state that a query never consults that entry. -/
def schemaErase (db : ClassSchema) (class_name : String) : ClassSchema :=
  List.filter (fun p => p.1 ≠ class_name) db

/-!
Characterizations of the three chain walks, as inductive relations that
follow the spec's step-by-step description of each traversal.
-/

/-- The outcome of the `class_is_a` chain walk from a starting class, as
the spec describes it: a visited class equal to `class_name` gives true
(checked before any lookup of that class); a visited class absent from
the schema gives the unknown outcome `none`; a fully resolved chain with
no match gives false. -/
inductive IsAWalk (db : ClassSchema) (class_name : String) :
    String → Option Bool → Prop where
  | found :
      IsAWalk db class_name class_name (some true)
  | missing (instance_class : String) :
      instance_class ≠ class_name →
      schemaLookup db instance_class = none →
      IsAWalk db class_name instance_class none
  | root (instance_class : String) (cd : ClassDescriptor) :
      instance_class ≠ class_name →
      schemaLookup db instance_class = some cd →
      cd.superclass = none →
      IsAWalk db class_name instance_class (some false)
  | step (instance_class sup : String) (cd : ClassDescriptor) (r : Option Bool) :
      instance_class ≠ class_name →
      schemaLookup db instance_class = some cd →
      cd.superclass = some sup →
      IsAWalk db class_name sup r →
      IsAWalk db class_name instance_class r

/-- The outcome of the `class_is_a_service` chain walk: a visited class
absent from the schema gives `none`; a visited class tagged `Service`
gives true; a fully resolved chain with no service tag gives false. -/
inductive ServiceWalk (db : ClassSchema) : String → Option Bool → Prop where
  | missing (instance_class : String) :
      schemaLookup db instance_class = none →
      ServiceWalk db instance_class none
  | service (instance_class : String) (cd : ClassDescriptor) :
      schemaLookup db instance_class = some cd →
      ClassTag.Service ∈ cd.tags →
      ServiceWalk db instance_class (some true)
  | root (instance_class : String) (cd : ClassDescriptor) :
      schemaLookup db instance_class = some cd →
      ClassTag.Service ∉ cd.tags →
      cd.superclass = none →
      ServiceWalk db instance_class (some false)
  | step (instance_class sup : String) (cd : ClassDescriptor) (r : Option Bool) :
      schemaLookup db instance_class = some cd →
      ClassTag.Service ∉ cd.tags →
      cd.superclass = some sup →
      ServiceWalk db sup r →
      ServiceWalk db instance_class r

/-- `FoundAt db property_name c cd pd` says: walking the superclass
chain from class `c`, the first visited class that declares
`property_name` has descriptor `cd`, and declares it with property
descriptor `pd` (every earlier visited class exists and does not declare
the property). -/
inductive FoundAt (db : ClassSchema) (property_name : String) :
    String → ClassDescriptor → PropertyDescriptor → Prop where
  | here (current_class : String) (cd : ClassDescriptor) (pd : PropertyDescriptor) :
      schemaLookup db current_class = some cd →
      mapLookup cd.properties property_name = some pd →
      FoundAt db property_name current_class cd pd
  | step (current_class sup : String) (cd cd' : ClassDescriptor)
      (pd : PropertyDescriptor) :
      schemaLookup db current_class = some cd →
      mapLookup cd.properties property_name = none →
      cd.superclass = some sup →
      FoundAt db property_name sup cd' pd →
      FoundAt db property_name current_class cd' pd

/-- `PropNotFound db property_name c` says: walking the superclass chain
from class `c`, no visited class declares `property_name` and the walk
stops, either at a class name absent from the schema (the starting class
itself or a dangling superclass link) or at a class with no superclass
(chain exhausted). -/
inductive PropNotFound (db : ClassSchema) (property_name : String) :
    String → Prop where
  | missing (current_class : String) :
      schemaLookup db current_class = none →
      PropNotFound db property_name current_class
  | root (current_class : String) (cd : ClassDescriptor) :
      schemaLookup db current_class = some cd →
      mapLookup cd.properties property_name = none →
      cd.superclass = none →
      PropNotFound db property_name current_class
  | step (current_class sup : String) (cd : ClassDescriptor) :
      schemaLookup db current_class = some cd →
      mapLookup cd.properties property_name = none →
      cd.superclass = some sup →
      PropNotFound db property_name sup →
      PropNotFound db property_name current_class

/-- The schema's superclass links admit a strictly decreasing rank: the
finite-and-acyclic assumption under which the Rust loops terminate. -/
def RankDecreasing (db : ClassSchema) (rank : String → Nat) : Prop :=
  ∀ (c : String) (cd : ClassDescriptor) (sup : String),
    schemaLookup db c = some cd → cd.superclass = some sup → rank sup < rank c

/-!
A small concrete schema, following the spec's example hierarchy
`Part → BasePart → PVInstance → Instance` and
`Workspace → Model → Instance` with `Workspace` tagged `Service`, plus a
class with a dangling superclass link; used to instantiate the general
theorems on concrete inputs.
-/

def partDescriptor : ClassDescriptor :=
  { superclass := some "BasePart"
    properties := [("Shape", { data_type := DataType.Enum "PartType" }),
      ("Size", { data_type := DataType.Value (DomType.otherType 5) })]
    default_properties := [("Shape", DomValue.other (DomType.otherType 3) 0),
      ("Size", DomValue.Enum 9)]
    tags := [] }

def basePartDescriptor : ClassDescriptor :=
  { superclass := some "PVInstance"
    properties := [("Anchored", { data_type := DataType.Value (DomType.otherType 1) }),
      ("Material", { data_type := DataType.Enum "Material" })]
    default_properties := [("Anchored", DomValue.other (DomType.otherType 1) 7),
      ("Material", DomValue.Enum 2)]
    tags := [] }

def pvInstanceDescriptor : ClassDescriptor :=
  { superclass := some "Instance"
    properties := []
    default_properties := []
    tags := [] }

def instanceDescriptor : ClassDescriptor :=
  { superclass := none
    properties := [("Name", { data_type := DataType.Value (DomType.otherType 2) })]
    default_properties := []
    tags := [] }

def modelDescriptor : ClassDescriptor :=
  { superclass := some "Instance"
    properties := []
    default_properties := []
    tags := [] }

def workspaceDescriptor : ClassDescriptor :=
  { superclass := some "Model"
    properties := []
    default_properties := []
    tags := [ClassTag.Service] }

def danglingDescriptor : ClassDescriptor :=
  { superclass := some "Ghost"
    properties := []
    default_properties := []
    tags := [] }

def testSchema : ClassSchema :=
  [("Part", partDescriptor), ("BasePart", basePartDescriptor),
   ("PVInstance", pvInstanceDescriptor), ("Instance", instanceDescriptor),
   ("Model", modelDescriptor), ("Workspace", workspaceDescriptor),
   ("Dangling", danglingDescriptor)]

/-- The descriptor of the only class of `rootOnlySchema`. -/
def rootDescriptor : ClassDescriptor :=
  { superclass := none
    properties := []
    default_properties := []
    tags := [] }

/-- A one-class schema with no superclass links, for the termination
witness. -/
def rootOnlySchema : ClassSchema :=
  [("A", rootDescriptor)]

/-!
Soundness and completeness of each fueled loop with respect to its
characterizing relation.
-/

theorem class_is_a_loop_sound (db : ClassSchema) (class_name : String) :
    ∀ (fuel : Nat) (instance_class : String) (r : Option Bool),
      class_is_a_loop db class_name fuel instance_class = LoopRes.done r →
      IsAWalk db class_name instance_class r := by
  intro fuel
  induction fuel with
  | zero =>
      intro ic r h
      exact absurd h (by simp [class_is_a_loop])
  | succ n ih =>
      intro ic r h
      simp only [class_is_a_loop] at h
      split at h
      · next hic =>
          injection h with h
          subst h
          subst hic
          exact IsAWalk.found
      · next hic =>
          split at h
          · next hdb =>
              injection h with h
              subst h
              exact IsAWalk.missing ic hic hdb
          · next cd hdb =>
              split at h
              · next sup hsup =>
                  exact IsAWalk.step ic sup cd r hic hdb hsup (ih sup r h)
              · next hsup =>
                  injection h with h
                  subst h
                  exact IsAWalk.root ic cd hic hdb hsup

theorem class_is_a_loop_complete (db : ClassSchema) (class_name : String)
    (instance_class : String) (r : Option Bool)
    (hw : IsAWalk db class_name instance_class r) :
    ∃ fuel, class_is_a_loop db class_name fuel instance_class = LoopRes.done r := by
  induction hw with
  | found =>
      exact ⟨1, by simp [class_is_a_loop]⟩
  | missing ic hne hdb =>
      exact ⟨1, by simp [class_is_a_loop, hne, hdb]⟩
  | root ic cd hne hdb hsup =>
      exact ⟨1, by simp [class_is_a_loop, hne, hdb, hsup]⟩
  | step ic sup cd r hne hdb hsup _ ih =>
      obtain ⟨fuel, hf⟩ := ih
      exact ⟨fuel + 1, by simp [class_is_a_loop, hne, hdb, hsup, hf]⟩

theorem class_is_a_service_loop_sound (db : ClassSchema) :
    ∀ (fuel : Nat) (instance_class : String) (r : Option Bool),
      class_is_a_service_loop db fuel instance_class = LoopRes.done r →
      ServiceWalk db instance_class r := by
  intro fuel
  induction fuel with
  | zero =>
      intro ic r h
      exact absurd h (by simp [class_is_a_service_loop])
  | succ n ih =>
      intro ic r h
      simp only [class_is_a_service_loop] at h
      cases hdb : schemaLookup db ic with
      | none =>
          rw [hdb] at h
          simp only [LoopRes.done.injEq] at h
          subst h
          exact ServiceWalk.missing ic hdb
      | some cd =>
          rw [hdb] at h
          by_cases htag : ClassTag.Service ∈ cd.tags
          · simp only [if_pos htag, LoopRes.done.injEq] at h
            subst h
            exact ServiceWalk.service ic cd hdb htag
          · simp only [if_neg htag] at h
            cases hsup : cd.superclass with
            | none =>
                rw [hsup] at h
                simp only [LoopRes.done.injEq] at h
                subst h
                exact ServiceWalk.root ic cd hdb htag hsup
            | some sup =>
                rw [hsup] at h
                exact ServiceWalk.step ic sup cd r hdb htag hsup (ih sup r h)

theorem class_is_a_service_loop_complete (db : ClassSchema)
    (instance_class : String) (r : Option Bool)
    (hw : ServiceWalk db instance_class r) :
    ∃ fuel, class_is_a_service_loop db fuel instance_class = LoopRes.done r := by
  induction hw with
  | missing ic hdb =>
      exact ⟨1, by simp [class_is_a_service_loop, hdb]⟩
  | service ic cd hdb htag =>
      exact ⟨1, by simp [class_is_a_service_loop, hdb, htag]⟩
  | root ic cd hdb htag hsup =>
      exact ⟨1, by simp [class_is_a_service_loop, hdb, htag, hsup]⟩
  | step ic sup cd r hdb htag hsup _ ih =>
      obtain ⟨fuel, hf⟩ := ih
      exact ⟨fuel + 1, by simp [class_is_a_service_loop, hdb, htag, hsup, hf]⟩

theorem find_loop_sound_some (db : ClassSchema) (property_name : String) :
    ∀ (fuel : Nat) (current_class : String) (info : PropertyInfo),
      find_property_info_loop db property_name fuel current_class =
        LoopRes.done (some info) →
      ∃ cd pd, FoundAt db property_name current_class cd pd ∧
        info = mkPropertyInfo pd (mapLookup cd.default_properties property_name) := by
  intro fuel
  induction fuel with
  | zero =>
      intro cc info h
      exact absurd h (by simp [find_property_info_loop])
  | succ n ih =>
      intro cc info h
      simp only [find_property_info_loop] at h
      split at h
      · next hdb =>
          injection h with h
          exact absurd h (by simp)
      · next cd hdb =>
          split at h
          · next pd hpd =>
              injection h with h
              rw [Option.some.injEq] at h
              exact ⟨cd, pd, FoundAt.here cc cd pd hdb hpd, h.symm⟩
          · next hpd =>
              split at h
              · next sup hsup =>
                  obtain ⟨cd', pd', hfa, hinfo⟩ := ih sup info h
                  exact ⟨cd', pd', FoundAt.step cc sup cd cd' pd' hdb hpd hsup hfa, hinfo⟩
              · next hsup =>
                  injection h with h
                  exact absurd h (by simp)

theorem find_loop_sound_none (db : ClassSchema) (property_name : String) :
    ∀ (fuel : Nat) (current_class : String),
      find_property_info_loop db property_name fuel current_class =
        LoopRes.done none →
      PropNotFound db property_name current_class := by
  intro fuel
  induction fuel with
  | zero =>
      intro cc h
      exact absurd h (by simp [find_property_info_loop])
  | succ n ih =>
      intro cc h
      simp only [find_property_info_loop] at h
      split at h
      · next hdb =>
          exact PropNotFound.missing cc hdb
      · next cd hdb =>
          split at h
          · next pd hpd =>
              injection h with h
              exact absurd h (by simp)
          · next hpd =>
              split at h
              · next sup hsup =>
                  exact PropNotFound.step cc sup cd hdb hpd hsup (ih sup h)
              · next hsup =>
                  exact PropNotFound.root cc cd hdb hpd hsup

theorem find_loop_complete_found (db : ClassSchema) (property_name : String)
    (current_class : String) (cd : ClassDescriptor) (pd : PropertyDescriptor)
    (hfa : FoundAt db property_name current_class cd pd) :
    ∃ fuel, find_property_info_loop db property_name fuel current_class =
      LoopRes.done (some (mkPropertyInfo pd
        (mapLookup cd.default_properties property_name))) := by
  induction hfa with
  | here cc cd pd hdb hpd =>
      exact ⟨1, by simp [find_property_info_loop, hdb, hpd]⟩
  | step cc sup cd cd' pd hdb hpd hsup _ ih =>
      obtain ⟨fuel, hf⟩ := ih
      exact ⟨fuel + 1, by simp [find_property_info_loop, hdb, hpd, hsup, hf]⟩

theorem find_loop_complete_none (db : ClassSchema) (property_name : String)
    (current_class : String)
    (hnf : PropNotFound db property_name current_class) :
    ∃ fuel, find_property_info_loop db property_name fuel current_class =
      LoopRes.done none := by
  induction hnf with
  | missing cc hdb =>
      exact ⟨1, by simp [find_property_info_loop, hdb]⟩
  | root cc cd hdb hpd hsup =>
      exact ⟨1, by simp [find_property_info_loop, hdb, hpd, hsup]⟩
  | step cc sup cd hdb hpd hsup _ ih =>
      obtain ⟨fuel, hf⟩ := ih
      exact ⟨fuel + 1, by simp [find_property_info_loop, hdb, hpd, hsup, hf]⟩

theorem FoundAt_det (db : ClassSchema) (property_name : String)
    (current_class : String) (cd : ClassDescriptor) (pd : PropertyDescriptor)
    (h1 : FoundAt db property_name current_class cd pd) :
    ∀ (cd' : ClassDescriptor) (pd' : PropertyDescriptor),
      FoundAt db property_name current_class cd' pd' → cd = cd' ∧ pd = pd' := by
  induction h1 with
  | here cc cd pd hdb hpd =>
      intro cd' pd' h2
      cases h2 with
      | here _ _ _ hdb' hpd' =>
          rw [hdb] at hdb'
          rw [Option.some.injEq] at hdb'
          subst hdb'
          rw [hpd] at hpd'
          rw [Option.some.injEq] at hpd'
          exact ⟨rfl, hpd'⟩
      | step _ sup _ _ _ hdb' hpd' hsup' hfa' =>
          rw [hdb] at hdb'
          rw [Option.some.injEq] at hdb'
          subst hdb'
          rw [hpd] at hpd'
          exact absurd hpd' (by simp)
  | step cc sup cd cd0 pd hdb hpd hsup _ ih =>
      intro cd' pd' h2
      cases h2 with
      | here _ _ _ hdb' hpd' =>
          rw [hdb] at hdb'
          rw [Option.some.injEq] at hdb'
          subst hdb'
          rw [hpd] at hpd'
          exact absurd hpd' (by simp)
      | step _ sup' _ _ _ hdb' hpd' hsup' hfa' =>
          rw [hdb] at hdb'
          rw [Option.some.injEq] at hdb'
          subst hdb'
          rw [hsup] at hsup'
          rw [Option.some.injEq] at hsup'
          subst hsup'
          exact ih cd' pd' hfa'

/-!
Lemmas about erasing one class from the schema, and about termination of
the loops when the superclass links admit a decreasing rank.
-/

theorem schemaLookup_erase_ne (db : ClassSchema) (class_name ic : String)
    (h : ic ≠ class_name) :
    schemaLookup (schemaErase db class_name) ic = schemaLookup db ic := by
  induction db with
  | nil => rfl
  | cons p rest ih =>
      obtain ⟨k, v⟩ := p
      by_cases hk : k = class_name
      · subst hk
        have hki : ¬ k = ic := fun hh => h hh.symm
        have e1 : schemaErase ((k, v) :: rest) k = schemaErase rest k := by
          simp [schemaErase]
        rw [e1, ih]
        show mapLookup rest ic = mapLookup ((k, v) :: rest) ic
        simp [mapLookup, hki]
      · have e1 : schemaErase ((k, v) :: rest) class_name =
            (k, v) :: schemaErase rest class_name := by
          simp [schemaErase, hk]
        rw [e1]
        show mapLookup ((k, v) :: schemaErase rest class_name) ic =
          mapLookup ((k, v) :: rest) ic
        by_cases hki : k = ic
        · simp [mapLookup, hki]
        · simp only [mapLookup, if_neg hki]
          exact ih

theorem class_is_a_loop_erase (db : ClassSchema) (class_name : String) :
    ∀ (fuel : Nat) (instance_class : String),
      class_is_a_loop (schemaErase db class_name) class_name fuel instance_class =
        class_is_a_loop db class_name fuel instance_class := by
  intro fuel
  induction fuel with
  | zero => intro ic; rfl
  | succ n ih =>
      intro ic
      by_cases hic : ic = class_name
      · simp [class_is_a_loop, hic]
      · have hdb' : schemaLookup (schemaErase db class_name) ic = schemaLookup db ic :=
          schemaLookup_erase_ne db class_name ic hic
        cases hdb : schemaLookup db ic with
        | none =>
            rw [hdb] at hdb'
            simp [class_is_a_loop, if_neg hic, hdb, hdb']
        | some cd =>
            rw [hdb] at hdb'
            cases hsup : cd.superclass with
            | none => simp [class_is_a_loop, if_neg hic, hdb, hdb', hsup]
            | some sup =>
                simp only [class_is_a_loop, if_neg hic, hdb, hdb', hsup]
                exact ih sup

theorem find_loop_total (db : ClassSchema) (property_name : String)
    (rank : String → Nat) (hrk : RankDecreasing db rank) :
    ∀ (fuel : Nat) (current_class : String), rank current_class < fuel →
      ∃ r, find_property_info_loop db property_name fuel current_class =
        LoopRes.done r := by
  intro fuel
  induction fuel with
  | zero => intro cc hlt; exact absurd hlt (by omega)
  | succ n ih =>
      intro cc hlt
      cases hdb : schemaLookup db cc with
      | none => exact ⟨none, by simp [find_property_info_loop, hdb]⟩
      | some cd =>
          cases hpd : mapLookup cd.properties property_name with
          | some pd =>
              exact ⟨some (mkPropertyInfo pd
                  (mapLookup cd.default_properties property_name)),
                by simp [find_property_info_loop, hdb, hpd]⟩
          | none =>
              cases hsup : cd.superclass with
              | none =>
                  exact ⟨none, by simp [find_property_info_loop, hdb, hpd, hsup]⟩
              | some sup =>
                  have h1 := hrk cc cd sup hdb hsup
                  obtain ⟨r, hr⟩ := ih sup (by omega)
                  refine ⟨r, ?_⟩
                  simp only [find_property_info_loop, hdb, hpd, hsup]
                  exact hr

theorem class_is_a_loop_total (db : ClassSchema) (class_name : String)
    (rank : String → Nat) (hrk : RankDecreasing db rank) :
    ∀ (fuel : Nat) (instance_class : String), rank instance_class < fuel →
      ∃ r, class_is_a_loop db class_name fuel instance_class = LoopRes.done r := by
  intro fuel
  induction fuel with
  | zero => intro ic hlt; exact absurd hlt (by omega)
  | succ n ih =>
      intro ic hlt
      by_cases hic : ic = class_name
      · exact ⟨some true, by simp [class_is_a_loop, hic]⟩
      · cases hdb : schemaLookup db ic with
        | none => exact ⟨none, by simp [class_is_a_loop, if_neg hic, hdb]⟩
        | some cd =>
            cases hsup : cd.superclass with
            | none =>
                exact ⟨some false, by simp [class_is_a_loop, if_neg hic, hdb, hsup]⟩
            | some sup =>
                have h1 := hrk ic cd sup hdb hsup
                obtain ⟨r, hr⟩ := ih sup (by omega)
                refine ⟨r, ?_⟩
                simp only [class_is_a_loop, if_neg hic, hdb, hsup]
                exact hr

theorem class_is_a_service_loop_total (db : ClassSchema)
    (rank : String → Nat) (hrk : RankDecreasing db rank) :
    ∀ (fuel : Nat) (instance_class : String), rank instance_class < fuel →
      ∃ r, class_is_a_service_loop db fuel instance_class = LoopRes.done r := by
  intro fuel
  induction fuel with
  | zero => intro ic hlt; exact absurd hlt (by omega)
  | succ n ih =>
      intro ic hlt
      cases hdb : schemaLookup db ic with
      | none => exact ⟨none, by simp [class_is_a_service_loop, hdb]⟩
      | some cd =>
          by_cases htag : ClassTag.Service ∈ cd.tags
          · exact ⟨some true, by simp [class_is_a_service_loop, hdb, htag]⟩
          · cases hsup : cd.superclass with
            | none =>
                exact ⟨some false,
                  by simp [class_is_a_service_loop, hdb, htag, hsup]⟩
            | some sup =>
                have h1 := hrk ic cd sup hdb hsup
                obtain ⟨r, hr⟩ := ih sup (by omega)
                refine ⟨r, ?_⟩
                simp only [class_is_a_service_loop, hdb, if_neg htag, hsup]
                exact hr

/-- `class_is_a` never reads the schema entry of `class_name`: erasing
that entry from the schema does not change the result. -/
theorem class_is_a_erase (db : ClassSchema) (fuel : Nat)
    (instance_class class_name : String) :
    class_is_a (schemaErase db class_name) fuel instance_class class_name =
      class_is_a db fuel instance_class class_name := by
  by_cases hsc : class_name = "Instance" ∨ instance_class = class_name
  · simp [class_is_a, hsc]
  · simp only [class_is_a, if_neg hsc]
    exact class_is_a_loop_erase db class_name fuel instance_class

theorem schemaErase_cons_self (db : ClassSchema) (class_name : String)
    (cd : ClassDescriptor) :
    schemaErase ((class_name, cd) :: db) class_name = schemaErase db class_name := by
  simp [schemaErase]

/-!
The claims.
-/

/-- Claim C1: after the short-circuits, the `class_is_a` chain walk has
exactly three outcomes, preserved distinctly: `none` (unknown) as soon
as a visited class name is absent from the schema, `some true` when a
visited class equals `class_name`, and `some false` only when the chain
is fully resolved to a class with no superclass without a match;
unknown is never collapsed into false. -/
theorem claim_C1_class_is_a_three_outcomes (db : ClassSchema)
    (instance_class class_name : String) (r : Option Bool)
    (hsc : ¬ (class_name = "Instance" ∨ instance_class = class_name)) :
    (∃ fuel, class_is_a db fuel instance_class class_name = LoopRes.done r) ↔
      IsAWalk db class_name instance_class r := by
  constructor
  · rintro ⟨fuel, hf⟩
    simp only [class_is_a, if_neg hsc] at hf
    exact class_is_a_loop_sound db class_name fuel instance_class r hf
  · intro hw
    obtain ⟨fuel, hf⟩ := class_is_a_loop_complete db class_name instance_class r hw
    refine ⟨fuel, ?_⟩
    simp only [class_is_a, if_neg hsc]
    exact hf

/-- Witness for claim C1 at a concrete schema, instance class and
target class. -/
theorem claim_C1_witness :
    (¬ ("BasePart" = "Instance" ∨ "Part" = "BasePart")) ∧
      ((∃ fuel, class_is_a testSchema fuel "Part" "BasePart" =
          LoopRes.done (some true)) ↔
        IsAWalk testSchema "BasePart" "Part" (some true)) :=
  ⟨by decide, claim_C1_class_is_a_three_outcomes testSchema "Part" "BasePart"
    (some true) (by decide)⟩

/-- Claim C2: `find_property_info` returns some `PropertyInfo` exactly
when the walk finds a first (most-derived) declaring class, and the
result is built from that class's declaration and default entry only;
ancestor declarations are never merged or overridden field-by-field. -/
theorem claim_C2_first_declaring_class_wins (db : ClassSchema)
    (instance_class property_name : String) (info : PropertyInfo) :
    (∃ fuel, find_property_info db fuel instance_class property_name =
        LoopRes.done (some info)) ↔
      ∃ cd pd, FoundAt db property_name instance_class cd pd ∧
        info = mkPropertyInfo pd (mapLookup cd.default_properties property_name) := by
  constructor
  · rintro ⟨fuel, hf⟩
    exact find_loop_sound_some db property_name fuel instance_class info hf
  · rintro ⟨cd, pd, hfa, hinfo⟩
    obtain ⟨fuel, hf⟩ :=
      find_loop_complete_found db property_name instance_class cd pd hfa
    refine ⟨fuel, ?_⟩
    rw [hinfo]
    exact hf

/-- Claim C4: `class_is_a_service` returns `some true` exactly when the
walk reaches a visited class carrying the `Service` tag, `some false`
when the whole chain resolves to a root with no service tag seen, and
`none` as soon as any visited class name (the starting one included) is
missing from the schema. -/
theorem claim_C4_service_walk (db : ClassSchema) (instance_class : String)
    (r : Option Bool) :
    (∃ fuel, class_is_a_service db fuel instance_class = LoopRes.done r) ↔
      ServiceWalk db instance_class r := by
  constructor
  · rintro ⟨fuel, hf⟩
    exact class_is_a_service_loop_sound db fuel instance_class r hf
  · intro hw
    exact class_is_a_service_loop_complete db instance_class r hw

/-- Claim C5: `find_property_info` returns `none` exactly in the
not-found cases (starting class absent from the schema, chain exhausted
with no declaration, or a dangling superclass link), and a dangling
superclass link is treated identically to an exhausted chain: the
result is the same not-found `none`, not an unknown/indeterminate
outcome. -/
theorem claim_C5_not_found_cases (db : ClassSchema)
    (instance_class property_name : String) :
    ((∃ fuel, find_property_info db fuel instance_class property_name =
        LoopRes.done none) ↔
      PropNotFound db property_name instance_class) ∧
      (∀ (cd : ClassDescriptor) (sup : String),
        schemaLookup db instance_class = some cd →
        mapLookup cd.properties property_name = none →
        cd.superclass = some sup →
        schemaLookup db sup = none →
        ∃ fuel, find_property_info db fuel instance_class property_name =
          LoopRes.done none) := by
  refine ⟨⟨?_, ?_⟩, ?_⟩
  · rintro ⟨fuel, hf⟩
    exact find_loop_sound_none db property_name fuel instance_class hf
  · intro hnf
    exact find_loop_complete_none db property_name instance_class hnf
  · intro cd sup hdb hpd hsup hdbs
    exact find_loop_complete_none db property_name instance_class
      (PropNotFound.step instance_class sup cd hdb hpd hsup
        (PropNotFound.missing sup hdbs))

/-- Witness for claim C5: the class `Dangling` of the concrete schema
has a superclass link to a class absent from the schema, and the lookup
of a property returns the not-found `none`. -/
theorem claim_C5_witness :
    ∃ fuel, find_property_info testSchema fuel "Dangling" "Name" =
      LoopRes.done none :=
  (claim_C5_not_found_cases testSchema "Dangling" "Name").2 danglingDescriptor
    "Ghost" (by decide) (by decide) (by decide) (by decide)

/-- Claim C6: for every string `C`, existing in the schema or not,
`class_is_a C C` and `class_is_a C "Instance"` are `some true`; both
short-circuits apply before any schema lookup, for any fuel (fuel `0`
included) and any schema. -/
theorem claim_C6_identity_and_universal_root (db : ClassSchema) (fuel : Nat)
    (C : String) :
    class_is_a db fuel C C = LoopRes.done (some true) ∧
      class_is_a db fuel C "Instance" = LoopRes.done (some true) := by
  constructor
  · simp [class_is_a]
  · simp [class_is_a]

/-- Claim C10: `class_is_a` never consults the schema entry of
`class_name` itself: erasing that entry, or prepending an arbitrary
entry for `class_name`, does not change the result, so the result
depends only on the names along the chain of `instance_class` (in
particular a full resolution yields `some false` even when `class_name`
has no schema entry, and a chain name equal to `class_name` yields
`some true` without consulting such an entry). -/
theorem claim_C10_class_name_entry_never_consulted (db : ClassSchema)
    (fuel : Nat) (instance_class class_name : String) :
    (class_is_a (schemaErase db class_name) fuel instance_class class_name =
        class_is_a db fuel instance_class class_name) ∧
      (∀ cd : ClassDescriptor,
        class_is_a ((class_name, cd) :: db) fuel instance_class class_name =
          class_is_a db fuel instance_class class_name) := by
  constructor
  · exact class_is_a_erase db fuel instance_class class_name
  · intro cd
    calc class_is_a ((class_name, cd) :: db) fuel instance_class class_name
        = class_is_a (schemaErase ((class_name, cd) :: db) class_name) fuel
            instance_class class_name :=
          (class_is_a_erase ((class_name, cd) :: db) fuel instance_class
            class_name).symm
      _ = class_is_a (schemaErase db class_name) fuel instance_class
            class_name := by
          rw [schemaErase_cons_self]
      _ = class_is_a db fuel instance_class class_name :=
          class_is_a_erase db fuel instance_class class_name

/-- Claim C3 counterexample: on the concrete schema, `Part` declares
`Size` as a Value-typed property whose default entry is an Enum-tagged
value — a tagged variant that does not match the declared data type —
yet `find_property_info` does not treat it as "no default available":
it passes the mismatched default through in `value_default`.  So the
claimed malformed-default handling does not hold for Value-typed
properties. -/
theorem claim_C3_counterexample :
    DomValue.variantType (DomValue.Enum 9) ≠ DomType.otherType 5 ∧
      find_property_info testSchema 1 "Part" "Size" =
        LoopRes.done (some (⟨none, none, some (DomType.otherType 5),
          some (DomValue.Enum 9)⟩ : PropertyInfo)) ∧
      (⟨none, none, some (DomType.otherType 5),
        some (DomValue.Enum 9)⟩ : PropertyInfo).value_default ≠ none := by
  refine ⟨by decide, by decide, by decide⟩

/-- Claim C3 (amended): when `find_property_info` finds a property on a
declaring class, a default entry whose tagged variant is not Enum is
silently treated as "no default available" for an Enum-typed property
(`enum_default` is empty, no error is surfaced); for a Value-typed
property the default entry is passed through to `value_default`
unchanged, without any check of its variant against the declared value
type. -/
theorem claim_C3_amended_default_handling (db : ClassSchema) (fuel : Nat)
    (instance_class property_name : String) (info : PropertyInfo)
    (hf : find_property_info db fuel instance_class property_name =
      LoopRes.done (some info)) :
    ∃ cd pd, FoundAt db property_name instance_class cd pd ∧
      (∀ e, pd.data_type = DataType.Enum e →
        ∀ d, mapLookup cd.default_properties property_name = some d →
          (∀ v, d ≠ DomValue.Enum v) → info.enum_default = none) ∧
      (∀ t, pd.data_type = DataType.Value t →
        info.value_default = mapLookup cd.default_properties property_name) := by
  obtain ⟨cd, pd, hfa, hinfo⟩ :=
    find_loop_sound_some db property_name fuel instance_class info hf
  refine ⟨cd, pd, hfa, ?_, ?_⟩
  · intro e he d hd hne
    subst hinfo
    simp only [mkPropertyInfo, he, hd]
    cases d with
    | Enum v => exact absurd rfl (hne v)
    | other ty payload => simp
  · intro t ht
    subst hinfo
    simp [mkPropertyInfo, ht]

/-- Witness for the amended claim C3: `Part.Shape` is Enum-typed with a
non-Enum default entry. -/
theorem claim_C3_witness :
    ∃ cd pd, FoundAt testSchema "Shape" "Part" cd pd ∧
      (∀ e, pd.data_type = DataType.Enum e →
        ∀ d, mapLookup cd.default_properties "Shape" = some d →
          (∀ v, d ≠ DomValue.Enum v) →
          (⟨some "PartType", none, none, none⟩ : PropertyInfo).enum_default =
            none) ∧
      (∀ t, pd.data_type = DataType.Value t →
        (⟨some "PartType", none, none, none⟩ : PropertyInfo).value_default =
          mapLookup cd.default_properties "Shape") :=
  claim_C3_amended_default_handling testSchema 1 "Part" "Shape"
    (⟨some "PartType", none, none, none⟩ : PropertyInfo) (by decide)

/-- Claim C7: when `find_property_info` finds an Enum-typed property
(with enum name `E`) on declaring class descriptor `cd`, the result has
`enum_name = some E`, empty `value_type` and `value_default`, and
`enum_default` is the ordinal of `cd`'s default entry exactly when that
entry exists and is itself Enum-tagged. -/
theorem claim_C7_enum_property_info (db : ClassSchema) (fuel : Nat)
    (instance_class property_name E : String) (cd : ClassDescriptor)
    (pd : PropertyDescriptor) (info : PropertyInfo)
    (hf : find_property_info db fuel instance_class property_name =
      LoopRes.done (some info))
    (hfa : FoundAt db property_name instance_class cd pd)
    (hty : pd.data_type = DataType.Enum E) :
    info.enum_name = some E ∧ info.value_type = none ∧
      info.value_default = none ∧
      ∀ v, (info.enum_default = some v ↔
        mapLookup cd.default_properties property_name =
          some (DomValue.Enum v)) := by
  obtain ⟨cd', pd', hfa', hinfo⟩ :=
    find_loop_sound_some db property_name fuel instance_class info hf
  obtain ⟨hcd, hpd⟩ :=
    FoundAt_det db property_name instance_class cd pd hfa cd' pd' hfa'
  subst hcd
  subst hpd
  subst hinfo
  refine ⟨?_, ?_, ?_, ?_⟩
  · simp [mkPropertyInfo, hty]
  · simp [mkPropertyInfo, hty]
  · simp [mkPropertyInfo, hty]
  · intro v
    simp only [mkPropertyInfo, hty]
    cases hd : mapLookup cd.default_properties property_name with
    | none => simp
    | some d =>
        cases d with
        | Enum w => simp
        | other ty payload => simp

/-- Witness for claim C7: `Material` is declared Enum-typed on
`BasePart` (reached from `Part`) with an Enum-tagged default of
ordinal 2. -/
theorem claim_C7_witness :
    (⟨some "Material", some 2, none, none⟩ : PropertyInfo).enum_name =
        some "Material" ∧
      (⟨some "Material", some 2, none, none⟩ : PropertyInfo).value_type =
        none ∧
      (⟨some "Material", some 2, none, none⟩ : PropertyInfo).value_default =
        none ∧
      ∀ v, ((⟨some "Material", some 2, none, none⟩ :
          PropertyInfo).enum_default = some v ↔
        mapLookup basePartDescriptor.default_properties "Material" =
          some (DomValue.Enum v)) :=
  claim_C7_enum_property_info testSchema 2 "Part" "Material" "Material"
    basePartDescriptor ⟨DataType.Enum "Material"⟩
    (⟨some "Material", some 2, none, none⟩ : PropertyInfo) (by decide)
    (FoundAt.step "Part" "BasePart" partDescriptor basePartDescriptor
      ⟨DataType.Enum "Material"⟩ (by decide) (by decide) (by decide)
      (FoundAt.here "BasePart" basePartDescriptor ⟨DataType.Enum "Material"⟩
        (by decide) (by decide)))
    (by decide)

/-- Claim C8: every `PropertyInfo` returned by `find_property_info` has
at most one of `enum_name` and `value_type` populated, never both. -/
theorem claim_C8_enum_value_mutually_exclusive (db : ClassSchema) (fuel : Nat)
    (instance_class property_name : String) (info : PropertyInfo)
    (hf : find_property_info db fuel instance_class property_name =
      LoopRes.done (some info)) :
    info.enum_name = none ∨ info.value_type = none := by
  obtain ⟨cd, pd, hfa, hinfo⟩ :=
    find_loop_sound_some db property_name fuel instance_class info hf
  subst hinfo
  cases hty : pd.data_type with
  | Enum e =>
      right
      simp [mkPropertyInfo, hty]
  | Value t =>
      left
      simp [mkPropertyInfo, hty]
  | Other =>
      left
      simp [mkPropertyInfo, hty]

/-- Witness for claim C8 on a concrete returned `PropertyInfo`. -/
theorem claim_C8_witness :
    (⟨none, none, some (DomType.otherType 5), some (DomValue.Enum 9)⟩ :
        PropertyInfo).enum_name = none ∨
      (⟨none, none, some (DomType.otherType 5), some (DomValue.Enum 9)⟩ :
        PropertyInfo).value_type = none :=
  claim_C8_enum_value_mutually_exclusive testSchema 1 "Part" "Size"
    (⟨none, none, some (DomType.otherType 5), some (DomValue.Enum 9)⟩ :
      PropertyInfo) (by decide)

/-- Claim C9: with a schema whose superclass links admit a strictly
decreasing rank (finite, acyclic chains), every operation is total over
arbitrary string inputs: with fuel exceeding the rank of the starting
class, each loop finishes with a result (never runs out of fuel, never
gets stuck), and `class_exists` is a total boolean. -/
theorem claim_C9_total_and_terminating (db : ClassSchema)
    (rank : String → Nat) (hrk : RankDecreasing db rank) (fuel : Nat)
    (instance_class class_name property_name : String)
    (hfuel : rank instance_class < fuel) :
    (∃ r, find_property_info db fuel instance_class property_name =
        LoopRes.done r) ∧
      (∃ r, class_is_a db fuel instance_class class_name = LoopRes.done r) ∧
      (∃ r, class_is_a_service db fuel instance_class = LoopRes.done r) ∧
      (class_exists db instance_class = true ∨
        class_exists db instance_class = false) := by
  refine ⟨?_, ?_, ?_, ?_⟩
  · exact find_loop_total db property_name rank hrk fuel instance_class hfuel
  · by_cases hsc : class_name = "Instance" ∨ instance_class = class_name
    · exact ⟨some true, by simp [class_is_a, hsc]⟩
    · obtain ⟨r, hr⟩ :=
        class_is_a_loop_total db class_name rank hrk fuel instance_class hfuel
      refine ⟨r, ?_⟩
      simp only [class_is_a, if_neg hsc]
      exact hr
  · exact class_is_a_service_loop_total db rank hrk fuel instance_class hfuel
  · cases hce : class_exists db instance_class
    · right
      rfl
    · left
      rfl

/-- Witness for claim C9 on a one-class schema with the constant rank. -/
theorem claim_C9_witness :
    (∃ r, find_property_info rootOnlySchema 1 "A" "Name" = LoopRes.done r) ∧
      (∃ r, class_is_a rootOnlySchema 1 "A" "B" = LoopRes.done r) ∧
      (∃ r, class_is_a_service rootOnlySchema 1 "A" = LoopRes.done r) ∧
      (class_exists rootOnlySchema "A" = true ∨
        class_exists rootOnlySchema "A" = false) :=
  claim_C9_total_and_terminating rootOnlySchema (fun _ => 0)
    (by
      intro c cd sup h1 h2
      simp only [schemaLookup, rootOnlySchema, mapLookup] at h1
      split at h1
      · injection h1 with h1
        subst h1
        simp [rootDescriptor] at h2
      · exact absurd h1 (by simp))
    1 "A" "B" "Name" (by decide)
